import Mathlib

/- Verification development for the strapi-kit export/import pipeline.

The Python source is shallowly embedded: JSON values are modelled by the
inductive `Json` (Python dicts become ordered association lists, matching
Python's insertion-ordered dict iteration), and each Python function of the
relation resolver, media handler, JSONL container, version detection and
importer is translated into a total executable Lean definition.  Network
calls made by the importer are recorded in an explicit call log, with the
server's behaviour supplied as an environment of response oracles. -/

set_option autoImplicit false

/-- JSON values.  Python dicts are ordered association lists; numbers are
integers (the ids handled by the pipeline are integral). -/
inductive Json where
  | null
  | bool (b : Bool)
  | num (n : Int)
  | str (s : String)
  | arr (elems : List Json)
  | obj (fields : List (String × Json))

/-- First-match association-list lookup: Python `d.get(k)` / `d[k]`. -/
def assocGet {α β : Type} [DecidableEq α] : List (α × β) → α → Option β
  | [], _ => none
  | (k, v) :: rest, key => if k = key then some v else assocGet rest key

/-- Python `k in d`. -/
def assocHas {α β : Type} [DecidableEq α] (l : List (α × β)) (key : α) : Bool :=
  (assocGet l key).isSome

/-- Python `d[k] = v` on a dict: replace in place if the key exists,
append otherwise. -/
def assocSet {α β : Type} [DecidableEq α] : List (α × β) → α → β → List (α × β)
  | [], k, v => [(k, v)]
  | (k1, v1) :: rest, k, v =>
    if k1 = k then (k, v) :: rest else (k1, v1) :: assocSet rest k v

namespace RelationResolver

/-- `RelationResolver.extract_relations` (strapi_kit/export/relation_resolver.py,
lines 29-68): schema-less structural extraction.  A field whose value is a
dict containing a `data` key is treated as a relation: null data gives an
empty id list, a dict with an `id` key gives a singleton, a list gives the
ids of its `id`-carrying elements (omitted when empty). -/
def extract_relations : List (String × Json) → List (String × List Json)
  | [] => []
  | (field_name, field_value) :: rest =>
    let tail := extract_relations rest
    match field_value with
    | Json.obj fields =>
      match assocGet fields "data" with
      | none => tail
      | some relation_data =>
        match relation_data with
        | Json.null => (field_name, []) :: tail
        | Json.obj rel_fields =>
          match assocGet rel_fields "id" with
          | some idv => (field_name, [idv]) :: tail
          | none => tail
        | Json.arr items =>
          let ids := items.filterMap fun item =>
            match item with
            | Json.obj item_fields => assocGet item_fields "id"
            | _ => none
          if ids.isEmpty then tail else (field_name, ids) :: tail
        | _ => tail
    | _ => tail

/-- Resolution of one field's id list (the inner loop of
`RelationResolver.resolve_relations`, lines 131-139): an old id is mapped
when it is an `int` instance present in the type mapping, and is dropped
with a logged warning otherwise. -/
def resolve_ids (type_mapping : List (Int × Int)) : List Json → List Int
  | [] => []
  | old_id :: rest =>
    match old_id with
    | Json.num n =>
      match assocGet type_mapping n with
      | some new_id => new_id :: resolve_ids type_mapping rest
      | none => resolve_ids type_mapping rest
    | _ => resolve_ids type_mapping rest

/-- The per-field loop of `resolve_relations` (lines 131-142): a field whose
resolved id list is empty is omitted from the result. -/
def resolve_relations_go (type_mapping : List (Int × Int)) :
    List (String × List Json) → List (String × List Int)
  | [] => []
  | (field_name, old_ids) :: rest =>
    let new_ids := resolve_ids type_mapping old_ids
    if new_ids.isEmpty then resolve_relations_go type_mapping rest
    else (field_name, new_ids) :: resolve_relations_go type_mapping rest

/-- `RelationResolver.resolve_relations` (lines 100-144). -/
def resolve_relations (relations : List (String × List Json))
    (id_mapping : List (String × List (Int × Int))) (content_type : String) :
    List (String × List Int) :=
  let type_mapping := (assocGet id_mapping content_type).getD []
  resolve_relations_go type_mapping relations

/-- `RelationResolver.build_relation_payload` (lines 146-181): zero ids give
an explicit empty array, one id is emitted as the bare scalar, two or more
as an array.  Ids are kept as JSON values, as in the untyped Python code. -/
def build_relation_payload : List (String × List Json) → List (String × Json)
  | [] => []
  | (field_name, ids) :: rest =>
    let value :=
      match ids with
      | [] => Json.arr []
      | [x] => x
      | xs => Json.arr xs
    (field_name, value) :: build_relation_payload rest

end RelationResolver

namespace MediaHandler

/-- `MediaHandler.extract_media_references` (py_strapi/export/media_handler.py,
lines 30-71): collects the `id` of every `data`-shaped sub-object that
carries a `mime` key (single dict) and of every `mime`-and-`id`-carrying
element of a `data` list. -/
def extract_media_references : List (String × Json) → List Json
  | [] => []
  | (_, field_value) :: rest =>
    let tail := extract_media_references rest
    match field_value with
    | Json.obj fields =>
      match assocGet fields "data" with
      | none => tail
      | some media_data =>
        match media_data with
        | Json.null => tail
        | Json.obj media_fields =>
          if assocHas media_fields "mime" then
            match assocGet media_fields "id" with
            | some idv => idv :: tail
            | none => tail
          else tail
        | Json.arr items =>
          (items.filterMap fun item =>
            match item with
            | Json.obj item_fields =>
              if assocHas item_fields "mime" then assocGet item_fields "id"
              else none
            | _ => none) ++ tail
        | _ => tail
    | _ => tail

/-- The filename computed by `MediaHandler.download_media_file` (lines
73-106): the file is written to `output_dir / filename` where `filename`
is the raw concatenation of the media id and the media's original name;
no sanitization is performed by the source. -/
def download_media_filename (media_id : Int) (media_name : String) : String :=
  toString media_id ++ "_" ++ media_name

/-- Whether a character list contains two consecutive dots. -/
def hasDotDot : List Char → Bool
  | '.' :: '.' :: _ => true
  | _ :: rest => hasDotDot rest
  | [] => false

/-- Whether a string contains the path-traversal sequence `..`. -/
def containsDotDot (s : String) : Bool :=
  hasDotDot s.toList

/-- Python truthiness of a JSON value (`if old_id and ...`). -/
def jsonTruthy : Json → Bool
  | Json.null => false
  | Json.bool b => b
  | Json.num n => n != 0
  | Json.str s => s ≠ ""
  | Json.arr elems => !elems.isEmpty
  | Json.obj fields => !fields.isEmpty

/-- One element of a media `data` list in
`MediaHandler.update_media_references` (lines 206-219): a `mime`-carrying
dict whose truthy `id` is in the mapping gets its `id` replaced. -/
def update_media_item (mapping : List (Int × Int)) (item : Json) : Json :=
  match item with
  | Json.obj item_fields =>
    if assocHas item_fields "mime" then
      match assocGet item_fields "id" with
      | some idv =>
        if jsonTruthy idv then
          match idv with
          | Json.num n =>
            match assocGet mapping n with
            | some new_id => Json.obj (assocSet item_fields "id" (Json.num new_id))
            | none => item
          | _ => item
        else item
      | none => item
    else item
  | _ => item

/-- `MediaHandler.update_media_references` (lines 167-226).  Note that the
source rebuilds the field as a fresh dict holding only the `data` key in the
single-media and list branches, dropping any sibling keys. -/
def update_media_references (data : List (String × Json))
    (media_id_mapping : List (Int × Int)) : List (String × Json) :=
  match data with
  | [] => []
  | (field_name, field_value) :: rest =>
    let tail := update_media_references rest media_id_mapping
    let updated_value :=
      match field_value with
      | Json.obj fields =>
        match assocGet fields "data" with
        | none => field_value
        | some media_data =>
          match media_data with
          | Json.null => field_value
          | Json.obj media_fields =>
            if assocHas media_fields "mime" then
              match assocGet media_fields "id" with
              | some idv =>
                if jsonTruthy idv then
                  match idv with
                  | Json.num n =>
                    match assocGet media_id_mapping n with
                    | some new_id =>
                      Json.obj [("data",
                        Json.obj (assocSet media_fields "id" (Json.num new_id)))]
                    | none => field_value
                  | _ => field_value
                else field_value
              | none => field_value
            else field_value
          | Json.arr items =>
            Json.obj [("data", Json.arr (items.map (update_media_item media_id_mapping)))]
          | _ => field_value
      | _ => field_value
    (field_name, updated_value) :: tail

end MediaHandler

/-- Strapi API versions. -/
inductive ApiVersion where
  | v4
  | v5
deriving DecidableEq

/-- `BaseClient._detect_api_version` (py_strapi/client/base.py, lines
120-163), as a transition on the session-level cached version: returns the
version used for this response together with the new cached version.  Every
branch of the source, including the ambiguous defaults, assigns
`self._api_version`. -/
def detect_api_version (cached : Option ApiVersion)
    (response_data : List (String × Json)) : ApiVersion × Option ApiVersion :=
  match cached with
  | some v => (v, some v)
  | none =>
    match assocGet response_data "data" with
    | some (Json.obj data) =>
      if assocHas data "attributes" then (ApiVersion.v4, some ApiVersion.v4)
      else if assocHas data "documentId" then (ApiVersion.v5, some ApiVersion.v5)
      else (ApiVersion.v4, some ApiVersion.v4)
    | some (Json.arr (first_item :: _)) =>
      match first_item with
      | Json.obj item_fields =>
        if assocHas item_fields "attributes" then (ApiVersion.v4, some ApiVersion.v4)
        else if assocHas item_fields "documentId" then (ApiVersion.v5, some ApiVersion.v5)
        else (ApiVersion.v4, some ApiVersion.v4)
      | _ => (ApiVersion.v4, some ApiVersion.v4)
    | _ => (ApiVersion.v4, some ApiVersion.v4)

/-- Modelled from the spec: `ExportedEntity` (spec section 3; the
strapi_kit models module is absent from the source tree, only its users
are present).  `data` is the attributes dict with relation/media fields
stripped, `relations` maps field names to ordered id lists (ids may be
ints or v5 document-id strings, hence JSON values). -/
structure ExportedEntity where
  id : Int
  document_id : Option String
  content_type : String
  data : List (String × Json)
  relations : List (String × List Json)

/-- Modelled from the spec: `ExportedMediaFile` (spec section 3). -/
structure ExportedMediaFile where
  id : Int
  url : String
  name : String
  mime : String
  size : Int
  hash : String
  local_path : String

/-- Modelled from the spec: `ExportMetadata` (spec section 3), restricted
to the fields the importer and the JSONL container consult. -/
structure ExportMetadata where
  version : String
  strapi_version : String
  content_types : List String
  total_entities : Int

/-- Modelled from the spec: `ExportData` (spec section 3): metadata plus
entities grouped by content-type UID plus the media list. -/
structure ExportData where
  metadata : ExportMetadata
  entities : List (String × List ExportedEntity)
  media : List ExportedMediaFile

/-- `ExportData.get_entity_count`: the sum of the per-content-type list
lengths. -/
def ExportData.get_entity_count (ed : ExportData) : Nat :=
  (ed.entities.map fun p => p.2.length).sum

/-- One line of a JSONL export file, at the granularity of its parsed JSON
object.  `json.dumps`/`json.loads` of the standard library are treated as
an abstract inverse pair, so a line is represented by the record it
serializes, discriminated as the reader does on its `_type` value:
`metaLine` is `_type = "metadata"`, `entityLine` is `_type = "entity"`,
`manifestLine` is `_type = "media_manifest"`, `unknownLine` is any other
`_type`, and `blankLine` is an empty line. -/
inductive JsonlLine where
  | metaLine (m : ExportMetadata)
  | entityLine (e : ExportedEntity)
  | manifestLine (files : List ExportedMediaFile)
  | unknownLine (rtype : String)
  | blankLine

/-- The mutable state of a `JSONLExportWriter`
(strapi_kit/export/jsonl_writer.py): emitted lines plus the running
entity counters kept as a reporting byproduct. -/
structure WriterState where
  lines : List JsonlLine
  entity_count : Nat
  content_type_counts : List (String × Nat)

/-- A freshly opened writer. -/
def WriterState.empty : WriterState :=
  { lines := [], entity_count := 0, content_type_counts := [] }

/-- `JSONLExportWriter.write_metadata` (lines 64-78). -/
def write_metadata (st : WriterState) (m : ExportMetadata) : WriterState :=
  { st with lines := st.lines ++ [JsonlLine.metaLine m] }

/-- `JSONLExportWriter.write_entity` (lines 80-97): appends the entity line
and bumps the total and per-content-type counters. -/
def write_entity (st : WriterState) (e : ExportedEntity) : WriterState :=
  { lines := st.lines ++ [JsonlLine.entityLine e],
    entity_count := st.entity_count + 1,
    content_type_counts :=
      assocSet st.content_type_counts e.content_type
        (((assocGet st.content_type_counts e.content_type).getD 0) + 1) }

/-- `JSONLExportWriter.write_media_manifest` (lines 99-113). -/
def write_media_manifest (st : WriterState) (files : List ExportedMediaFile) :
    WriterState :=
  { st with lines := st.lines ++ [JsonlLine.manifestLine files] }

/-- The full writer protocol: metadata, then each entity in order, then the
media manifest. -/
def write_jsonl (m : ExportMetadata) (es : List ExportedEntity)
    (files : List ExportedMediaFile) : List JsonlLine :=
  (write_media_manifest (es.foldl write_entity (write_metadata WriterState.empty m)) files).lines

/-- The mutable state of a `JSONLImportReader`
(strapi_kit/export/jsonl_reader.py): the unread remainder of the file plus
the cached metadata and media manifest. -/
structure ReaderState where
  lines : List JsonlLine
  metadata : Option ExportMetadata
  media_manifest : Option (List ExportedMediaFile)

/-- A freshly opened reader on the given file contents. -/
def ReaderState.openOn (lines : List JsonlLine) : ReaderState :=
  { lines := lines, metadata := none, media_manifest := none }

/-- `JSONLImportReader.read_metadata` (lines 65-100): returns the cached
metadata if present, otherwise consumes the first line, which must be a
metadata record (an empty file, a blank or malformed line, or any other
record type is a fatal `FormatError`). -/
def read_metadata (st : ReaderState) : Except String (ExportMetadata × ReaderState) :=
  match st.metadata with
  | some m => Except.ok (m, st)
  | none =>
    match st.lines with
    | [] => Except.error "Empty JSONL file"
    | line :: rest =>
      match line with
      | JsonlLine.metaLine m =>
        Except.ok (m, { lines := rest, metadata := some m,
                        media_manifest := st.media_manifest })
      | JsonlLine.blankLine => Except.error "Invalid JSON on line 1"
      | _ => Except.error "Expected metadata on line 1"

/-- The line loop of `JSONLImportReader.iter_entities` (lines 120-155):
yields entity lines, caches the manifest and breaks on the media-manifest
line (without yielding it), and skips blank lines, duplicate metadata and
unknown record types.  Returns the yielded entities, the unread remainder
and the manifest cache. -/
def iter_entities_go :
    List JsonlLine → Option (List ExportedMediaFile) →
    List ExportedEntity × List JsonlLine × Option (List ExportedMediaFile)
  | [], manifest => ([], [], manifest)
  | line :: rest, manifest =>
    match line with
    | JsonlLine.entityLine e =>
      let (es, rem, man) := iter_entities_go rest manifest
      (e :: es, rem, man)
    | JsonlLine.manifestLine files => ([], rest, some files)
    | JsonlLine.metaLine _ => iter_entities_go rest manifest
    | JsonlLine.unknownLine _ => iter_entities_go rest manifest
    | JsonlLine.blankLine => iter_entities_go rest manifest

/-- `JSONLImportReader.iter_entities`, fully drained: reads the metadata
first if it has not been read (lines 117-118), then runs the line loop. -/
def iter_entities (st : ReaderState) :
    Except String (List ExportedEntity × ReaderState) :=
  match read_metadata st with
  | Except.error e => Except.error e
  | Except.ok (_, st1) =>
    let (es, rem, man) := iter_entities_go st1.lines st1.media_manifest
    Except.ok (es, { lines := rem, metadata := st1.metadata, media_manifest := man })

/-- The generator `iter_entities` consumed for at most `n` yields and then
abandoned: the reader stops right after the `n`-th yielded entity, leaving
the rest of the file unread. -/
def iter_entities_take :
    List JsonlLine → Nat → Option (List ExportedMediaFile) →
    List ExportedEntity × List JsonlLine × Option (List ExportedMediaFile)
  | lines, 0, manifest => ([], lines, manifest)
  | [], _ + 1, manifest => ([], [], manifest)
  | line :: rest, n + 1, manifest =>
    match line with
    | JsonlLine.entityLine e =>
      let (es, rem, man) := iter_entities_take rest n manifest
      (e :: es, rem, man)
    | JsonlLine.manifestLine files => ([], rest, some files)
    | JsonlLine.metaLine _ => iter_entities_take rest (n + 1) manifest
    | JsonlLine.unknownLine _ => iter_entities_take rest (n + 1) manifest
    | JsonlLine.blankLine => iter_entities_take rest (n + 1) manifest

/-- `JSONLImportReader.read_media_manifest` (lines 157-181): returns the
cached manifest, or drains the remaining entity lines (discarding them) to
locate it, returning the empty list when no manifest line exists. -/
def read_media_manifest (st : ReaderState) :
    Except String (List ExportedMediaFile × ReaderState) :=
  match st.media_manifest with
  | some m => Except.ok (m, st)
  | none =>
    match iter_entities st with
    | Except.error e => Except.error e
    | Except.ok (_, st1) =>
      match st1.media_manifest with
      | some m => Except.ok (m, st1)
      | none => Except.ok ([], st1)

/-- The partially-drained usage pattern of the reader: open on the file,
consume at most `n` entities from `iter_entities`, abandon the generator,
then call `read_media_manifest`. -/
def drain_then_manifest (lines : List JsonlLine) (n : Nat) :
    Except String (List ExportedMediaFile) :=
  match read_metadata (ReaderState.openOn lines) with
  | Except.error e => Except.error e
  | Except.ok (_, st1) =>
    let (_, rem, man) := iter_entities_take st1.lines n st1.media_manifest
    match read_media_manifest { lines := rem, metadata := st1.metadata,
                                media_manifest := man } with
    | Except.error e => Except.error e
    | Except.ok (m, _) => Except.ok m

/-- Modelled from the spec: `ImportOptions` (spec sections 3 and 6; the
py_strapi models module is absent from the source tree). -/
structure ImportOptions where
  dry_run : Bool
  skip_relations : Bool
  content_types : Option (List String)
  import_media : Bool

/-- Modelled from the spec: `ImportResult` (spec section 3), the mutable
accumulator threaded through the import passes. -/
structure ImportResult where
  success : Bool
  dry_run : Bool
  entities_imported : Nat
  entities_failed : Nat
  media_imported : Nat
  media_skipped : Nat
  id_mapping : List (String × List (Int × Int))
  errors : List String
  warnings : List String

/-- `ImportResult(success=False, dry_run=...)`: the accumulator at the start
of `import_data`. -/
def ImportResult.initial (dry : Bool) : ImportResult :=
  { success := false, dry_run := dry, entities_imported := 0,
    entities_failed := 0, media_imported := 0, media_skipped := 0,
    id_mapping := [], errors := [], warnings := [] }

/-- `ImportResult.add_error`: appends to the ordered error list. -/
def add_error (r : ImportResult) (msg : String) : ImportResult :=
  { r with errors := r.errors ++ [msg] }

/-- `ImportResult.add_warning`: appends to the ordered warning list. -/
def add_warning (r : ImportResult) (msg : String) : ImportResult :=
  { r with warnings := r.warnings ++ [msg] }

/-- One network call issued by the importer. -/
inductive NetCall where
  | create (endpoint : String) (payload : Json)
  | update (path : String) (payload : Json)
  | upload (file_name : String)

/-- Server outcome of a `client.create` call: a response whose `data`
carries the new id, a response with falsy `data`, a `ValidationError`, or
any other exception. -/
inductive CreateOutcome where
  | ok (new_id : Int)
  | emptyData
  | validationError
  | otherError

/-- The importer's collaborators, supplied as deterministic oracles: the
target server's responses to create/update/upload calls, the local media
directory contents, and the client's detected API version. -/
structure ImportEnv where
  create_outcome : String → Json → CreateOutcome
  update_ok : String → Json → Bool
  upload_outcome : ExportedMediaFile → Option Int
  file_exists : ExportedMediaFile → Bool
  media_dir_exists : Bool
  target_version : Option String

/-- The importer's running state: the result accumulator plus the log of
network calls issued so far. -/
structure ImportRun where
  result : ImportResult
  calls : List NetCall

/-- Leading-segment test on character lists: Python `startswith`. -/
def charsLead : List Char → List Char → Bool
  | [], _ => true
  | _ :: _, [] => false
  | c :: cs, d :: ds => c = d && charsLead cs ds

/-- Python `s.startswith(p)`. -/
def str_startswith (s p : String) : Bool :=
  charsLead p.toList s.toList

/-- Python `s.endswith(p)`. -/
def str_endswith (s p : String) : Bool :=
  charsLead p.toList.reverse s.toList.reverse

/-- Python `s.split("::")` on character lists (greedy left-to-right). -/
def split_double_colon : List Char → List (List Char)
  | [] => [[]]
  | ':' :: ':' :: rest => [] :: split_double_colon rest
  | c :: rest =>
    match split_double_colon rest with
    | [] => [[c]]
    | piece :: pieces => (c :: piece) :: pieces

/-- Python `s.split(".")[0]`. -/
def take_until_dot : List Char → List Char
  | [] => []
  | '.' :: _ => []
  | c :: rest => c :: take_until_dot rest

/-- `StrapiImporter._uid_to_endpoint` (py_strapi/export/importer.py, lines
393-411): take the part after `::`, keep the segment before the first `.`,
and naively pluralize. -/
def uid_to_endpoint (uid : String) : String :=
  match split_double_colon uid.toList with
  | [_, second] =>
    let name := String.mk (take_until_dot second)
    if !str_endswith name "s" then name ++ "s" else name
  | _ => uid

/-- `StrapiImporter._validate_export_data` (lines 154-179): three warn-only
checks (format-version, source/target API version mismatch, empty entity
set); no errors are ever recorded here. -/
def validate_export_data (env : ImportEnv) (export_data : ExportData)
    (r : ImportResult) : ImportResult :=
  let r :=
    if !str_startswith export_data.metadata.version "1." then
      add_warning r "Export format version may not be fully compatible"
    else r
  let r :=
    match env.target_version with
    | some tv =>
      if export_data.metadata.strapi_version ≠ tv then
        add_warning r "Source version differs from target"
      else r
    | none => r
  if export_data.get_entity_count = 0 then
    add_warning r "No entities to import"
  else r

/-- `StrapiImporter._get_content_types_to_import` (lines 181-199): the
caller-specified filter restricted to the available types, or all available
types when no (or an empty) filter is given. -/
def get_content_types_to_import (export_data : ExportData)
    (options : ImportOptions) : List String :=
  let available := export_data.entities.map Prod.fst
  match options.content_types with
  | some cts =>
    if cts.isEmpty then available
    else cts.filter fun ct => available.contains ct
  | none => available

/-- The per-file loop of `StrapiImporter._import_media` (lines 363-388):
dry run counts without uploading; a missing local file is skipped with a
warning; an upload failure is caught, warned about and skipped; a
successful upload records the old-to-new id pair. -/
def import_media_loop (env : ImportEnv) (options : ImportOptions) :
    List ExportedMediaFile → ImportRun → List (Int × Int) →
    List (Int × Int) × ImportRun
  | [], st, acc => (acc, st)
  | m :: rest, st, acc =>
    if options.dry_run then
      import_media_loop env options rest
        { st with result :=
            { st.result with media_imported := st.result.media_imported + 1 } } acc
    else if !env.file_exists m then
      import_media_loop env options rest
        { st with result :=
            (add_warning
              ({ st.result with media_skipped := st.result.media_skipped + 1 })
              "Media file not found") } acc
    else
      let st := { st with calls := st.calls ++ [NetCall.upload m.name] }
      match env.upload_outcome m with
      | some new_id =>
        import_media_loop env options rest
          { st with result :=
              { st.result with media_imported := st.result.media_imported + 1 } }
          (acc ++ [(m.id, new_id)])
      | none =>
        import_media_loop env options rest
          { st with result :=
              (add_warning
                ({ st.result with media_skipped := st.result.media_skipped + 1 })
                "Failed to import media") } acc

/-- `StrapiImporter._import_media` (lines 328-391): returns early with an
empty mapping when there is no media, no media directory was given (logged
only), or the directory does not exist (recorded as an error). -/
def import_media (env : ImportEnv) (export_data : ExportData)
    (media_dir : Option String) (options : ImportOptions) (st : ImportRun) :
    List (Int × Int) × ImportRun :=
  if export_data.media.isEmpty then ([], st)
  else
    match media_dir with
    | none => ([], st)
    | some _ =>
      if !env.media_dir_exists then
        ([], { st with result := add_error st.result "Media directory not found" })
      else import_media_loop env options export_data.media st []

/-- The id-mapping insertion of `StrapiImporter._import_entities` (lines
242-246): create the per-content-type map on first use, then assign. -/
def insert_id_mapping (m : List (String × List (Int × Int))) (ct : String)
    (old_id new_id : Int) : List (String × List (Int × Int)) :=
  match assocGet m ct with
  | none => m ++ [(ct, [(old_id, new_id)])]
  | some tm => assocSet m ct (assocSet tm old_id new_id)

/-- The per-entity loop of `StrapiImporter._import_entities` (lines
224-255): media references are rewritten when the media mapping is
non-empty, a dry run only counts, and each creation failure is caught
per-entity (recorded, never propagated). -/
def import_entities_loop (env : ImportEnv) (options : ImportOptions)
    (endpoint content_type : String) (media_id_mapping : List (Int × Int)) :
    List ExportedEntity → ImportRun → ImportRun
  | [], st => st
  | entity :: rest, st =>
    let entity_data :=
      if media_id_mapping.isEmpty then entity.data
      else MediaHandler.update_media_references entity.data media_id_mapping
    if options.dry_run then
      import_entities_loop env options endpoint content_type media_id_mapping rest
        { st with result :=
            { st.result with
              entities_imported := st.result.entities_imported + 1 } }
    else
      let payload := Json.obj [("data", Json.obj entity_data)]
      let st := { st with calls := st.calls ++ [NetCall.create endpoint payload] }
      match env.create_outcome endpoint payload with
      | CreateOutcome.ok new_id =>
        import_entities_loop env options endpoint content_type media_id_mapping rest
          { st with result :=
              { st.result with
                id_mapping :=
                  insert_id_mapping st.result.id_mapping content_type entity.id new_id,
                entities_imported := st.result.entities_imported + 1 } }
      | CreateOutcome.emptyData =>
        import_entities_loop env options endpoint content_type media_id_mapping rest st
      | CreateOutcome.validationError =>
        import_entities_loop env options endpoint content_type media_id_mapping rest
          { st with result :=
              (add_error
                ({ st.result with entities_failed := st.result.entities_failed + 1 })
                "Validation error importing entity") }
      | CreateOutcome.otherError =>
        import_entities_loop env options endpoint content_type media_id_mapping rest
          { st with result :=
              (add_error
                ({ st.result with entities_failed := st.result.entities_failed + 1 })
                "Failed to import entity") }

/-- `StrapiImporter._import_entities` (lines 201-255): the entity pass,
content type by content type in order. -/
def import_entities (env : ImportEnv) (export_data : ExportData)
    (content_types : List String) (media_id_mapping : List (Int × Int))
    (options : ImportOptions) (st : ImportRun) : ImportRun :=
  content_types.foldl
    (fun st ct =>
      import_entities_loop env options (uid_to_endpoint ct) ct media_id_mapping
        ((assocGet export_data.entities ct).getD []) st)
    st

/-- The per-entity loop of `StrapiImporter._import_relations` (lines
279-326).  Note lines 305-309 of the source: the relations are passed
through unresolved (`resolved_relations[field_name] = old_ids`) before
being shaped by `build_relation_payload`, so the update payload carries the
old ids. -/
def import_relations_loop (env : ImportEnv) (options : ImportOptions)
    (endpoint content_type : String) :
    List ExportedEntity → ImportRun → ImportRun
  | [], st => st
  | entity :: rest, st =>
    if entity.relations.isEmpty then
      import_relations_loop env options endpoint content_type rest st
    else
      match assocGet st.result.id_mapping content_type with
      | none => import_relations_loop env options endpoint content_type rest st
      | some tm =>
        match assocGet tm entity.id with
        | none => import_relations_loop env options endpoint content_type rest st
        | some new_id =>
          if options.dry_run then
            import_relations_loop env options endpoint content_type rest st
          else
            let resolved_relations := entity.relations
            let relation_payload :=
              RelationResolver.build_relation_payload resolved_relations
            if relation_payload.isEmpty then
              import_relations_loop env options endpoint content_type rest st
            else
              let path := endpoint ++ "/" ++ toString new_id
              let payload := Json.obj [("data", Json.obj relation_payload)]
              let st := { st with calls := st.calls ++ [NetCall.update path payload] }
              if env.update_ok path payload then
                import_relations_loop env options endpoint content_type rest st
              else
                import_relations_loop env options endpoint content_type rest
                  { st with result :=
                      (add_warning st.result "Failed to import relations") }

/-- `StrapiImporter._import_relations` (lines 257-326): the relation pass,
run after the entity pass, content type by content type. -/
def import_relations (env : ImportEnv) (export_data : ExportData)
    (content_types : List String) (options : ImportOptions) (st : ImportRun) :
    ImportRun :=
  content_types.foldl
    (fun st ct =>
      import_relations_loop env options (uid_to_endpoint ct) ct
        ((assocGet export_data.entities ct).getD []) st)
    st

/-- `StrapiImporter.import_data` (lines 55-152).  Per-entity and per-file
exceptions are caught inside the passes, so the translated pipeline is a
total function; the source's outermost exception handler only re-raises
(wrapped in `ImportExportError`) without returning a result. -/
def import_data (env : ImportEnv) (export_data : ExportData)
    (options : ImportOptions) (media_dir : Option String) : ImportRun :=
  let result := ImportResult.initial options.dry_run
  let result := validate_export_data env export_data result
  if !result.errors.isEmpty && !options.dry_run then
    { result := { result with success := false }, calls := [] }
  else
    let content_types_to_import := get_content_types_to_import export_data options
    if content_types_to_import.isEmpty then
      { result :=
          { (add_warning result "No content types to import") with success := true },
        calls := [] }
    else
      let st : ImportRun := { result := result, calls := [] }
      let mediaStep :=
        if options.import_media && !export_data.media.isEmpty then
          import_media env export_data media_dir options st
        else ([], st)
      let media_id_mapping := mediaStep.1
      let st := mediaStep.2
      let st := import_entities env export_data content_types_to_import
        media_id_mapping options st
      let st :=
        if !options.skip_relations then
          import_relations env export_data content_types_to_import options st
        else st
      { st with result :=
          { st.result with success := st.result.entities_failed == 0 } }

/-- A two-content-type export for exercising the two-pass import protocol:
category 1 (entity B) and article 2 (entity A) whose `category` relation
field references B's old id 1. -/
def two_pass_export : ExportData :=
  { metadata := { version := "1.0", strapi_version := "v5",
                  content_types := ["api::category.category", "api::article.article"],
                  total_entities := 2 },
    entities :=
      [("api::category.category",
         [{ id := 1, document_id := none, content_type := "api::category.category",
            data := [("name", Json.str "News")], relations := [] }]),
       ("api::article.article",
         [{ id := 2, document_id := none, content_type := "api::article.article",
            data := [("title", Json.str "Hello")],
            relations := [("category", [Json.num 1])] }])],
    media := [] }

/-- A target server that assigns new id 10 to the created category and new
id 20 to the created article (the naive pluralizer of `_uid_to_endpoint`
maps `api::category.category` to the endpoint `categorys`). -/
def two_pass_env : ImportEnv :=
  { create_outcome := fun endpoint _ =>
      if endpoint = "categorys" then CreateOutcome.ok 10 else CreateOutcome.ok 20,
    update_ok := fun _ _ => true,
    upload_outcome := fun _ => none,
    file_exists := fun _ => false,
    media_dir_exists := true,
    target_version := some "v5" }

/-- Import options for a real (non-dry) run with the relation pass on. -/
def two_pass_options : ImportOptions :=
  { dry_run := false, skip_relations := false, content_types := none,
    import_media := false }

/-- Import options for a dry run. -/
def dry_run_options : ImportOptions :=
  { dry_run := true, skip_relations := false, content_types := none,
    import_media := true }

/-- The ambiguous response of the repository's own regression test
`test_ambiguous_response_not_cached`: `data` is a dict carrying neither an
`attributes` nor a `documentId` key. -/
def ambiguous_response : List (String × Json) :=
  [("data", Json.obj [("id", Json.num 1), ("title", Json.str "Test")])]

/-- An unambiguous v5 response: `data` carries a `documentId` key. -/
def v5_response : List (String × Json) :=
  [("data", Json.obj [("id", Json.num 1), ("documentId", Json.str "abc123"),
                      ("title", Json.str "Test")])]

/-- C1.  Two-pass ID mapping, evaluated on `two_pass_export`: after the
entity pass, `id_mapping` maps category 1 to its target-assigned id 10, yet
the relation-pass update issued for article 2 (created as 20) carries the
old source id 1 in its `category` payload — lines 305-314 of the importer
pass the relations through unresolved — contradicting the claim that the
relation payload contains B's new id and never B's old id. -/
theorem import_relations_payload_keeps_old_id :
    assocGet (import_data two_pass_env two_pass_export two_pass_options none).result.id_mapping
      "api::category.category" = some [(1, 10)] ∧
    (import_data two_pass_env two_pass_export two_pass_options none).calls =
      [NetCall.create "categorys" (Json.obj [("data", Json.obj [("name", Json.str "News")])]),
       NetCall.create "articles" (Json.obj [("data", Json.obj [("title", Json.str "Hello")])]),
       NetCall.update "articles/20"
         (Json.obj [("data", Json.obj [("category", Json.num 1)])])] ∧
    (1 : Int) ≠ 10 :=
  ⟨rfl, rfl, by decide⟩

/-- C2.  Version detection, evaluated on the ambiguous response of the
repository's own test `test_ambiguous_response_not_cached`: the source
caches the `v4` default (the cached version does not stay `None`), and a
subsequent unambiguous v5 response is then answered from the cache as `v4`
instead of setting the cached version to `v5`. -/
theorem detect_api_version_caches_ambiguous :
    (detect_api_version none ambiguous_response).2 = some ApiVersion.v4 ∧
    (detect_api_version none ambiguous_response).2 ≠ none ∧
    detect_api_version (detect_api_version none ambiguous_response).2 v5_response =
      (ApiVersion.v4, some ApiVersion.v4) :=
  ⟨rfl, by decide, rfl⟩

/-- C3 counterexample: `extract_relations` performs no `mime` check, so a
`mime`-carrying media field IS extracted as a relation, contradicting the
claim that a field is treated as a relation only when its `data` value has
no sibling `mime` key. -/
theorem extract_relations_extracts_mime_field :
    RelationResolver.extract_relations
      [("f", Json.obj [("data",
          Json.obj [("id", Json.num 1), ("mime", Json.str "image/jpeg")])])] =
      [("f", [Json.num 1])] ∧
    RelationResolver.extract_relations
      [("f", Json.obj [("data",
          Json.obj [("id", Json.num 1), ("mime", Json.str "image/jpeg")])])] ≠ [] :=
  ⟨rfl, by
    rw [show RelationResolver.extract_relations
        [("f", Json.obj [("data",
            Json.obj [("id", Json.num 1), ("mime", Json.str "image/jpeg")])])] =
        [("f", [Json.num 1])] from rfl]
    exact List.cons_ne_nil _ _⟩

/-- Closed form of `extract_media_references`, universally over entity
data mappings: in field order, a `data`-shaped field contributes its id
exactly when the sub-object carries a `mime` key (a single dict only with
`mime` present; a list only its `mime`-and-`id`-carrying dict elements);
every other field contributes nothing. -/
theorem extract_media_references_flatMap (data : List (String × Json)) :
    MediaHandler.extract_media_references data =
      data.flatMap (fun p =>
        match p.2 with
        | Json.obj fields =>
          match assocGet fields "data" with
          | some (Json.obj media_fields) =>
            if assocHas media_fields "mime" then
              match assocGet media_fields "id" with
              | some idv => [idv]
              | none => []
            else []
          | some (Json.arr items) =>
            items.filterMap fun item =>
              match item with
              | Json.obj item_fields =>
                if assocHas item_fields "mime" then assocGet item_fields "id"
                else none
              | _ => none
          | _ => []
        | _ => []) := by
  induction data with
  | nil => rfl
  | cons hd tl ih =>
    obtain ⟨name, value⟩ := hd
    simp only [MediaHandler.extract_media_references, List.flatMap_cons]
    cases value with
    | obj fields =>
      cases hdat : assocGet fields "data" with
      | none => simpa [hdat] using ih
      | some md =>
        cases md with
        | obj mf =>
          by_cases hm : assocHas mf "mime"
          · cases hid : assocGet mf "id" <;> simp [hdat, hm, hid, ih]
          · simp [hdat, hm, ih]
        | arr items => simp [hdat, ih]
        | null => simpa [hdat] using ih
        | bool b => simpa [hdat] using ih
        | num n => simpa [hdat] using ih
        | str s => simpa [hdat] using ih
    | null => simpa using ih
    | bool b => simpa using ih
    | num n => simpa using ih
    | str s => simpa using ih
    | arr l => simpa using ih

/-- Closed form of schema-less `extract_relations`, universally over
entity data mappings: every field whose value is a dict containing a
`data` key is extracted — null data as an empty id list, an `id`-carrying
dict as a singleton, a list as its extracted ids when non-empty — with no
`mime` test anywhere in the function. -/
theorem extract_relations_filterMap (data : List (String × Json)) :
    RelationResolver.extract_relations data =
      data.filterMap (fun p =>
        match p.2 with
        | Json.obj fields =>
          match assocGet fields "data" with
          | some Json.null => some (p.1, ([] : List Json))
          | some (Json.obj rel_fields) =>
            match assocGet rel_fields "id" with
            | some idv => some (p.1, [idv])
            | none => none
          | some (Json.arr items) =>
            (fun ids => if ids.isEmpty then none else some (p.1, ids))
              (items.filterMap fun item =>
                match item with
                | Json.obj item_fields => assocGet item_fields "id"
                | _ => none)
          | _ => none
        | _ => none) := by
  induction data with
  | nil => rfl
  | cons hd tl ih =>
    obtain ⟨name, value⟩ := hd
    simp only [RelationResolver.extract_relations, List.filterMap_cons]
    cases value with
    | obj fields =>
      cases hdat : assocGet fields "data" with
      | none => simpa [hdat] using ih
      | some md =>
        cases md with
        | obj rf =>
          cases hid : assocGet rf "id" <;> simp [hdat, hid, ih]
        | arr items =>
          by_cases he : (items.filterMap fun item =>
              match item with
              | Json.obj item_fields => assocGet item_fields "id"
              | _ => none).isEmpty <;>
            simp [hdat, he, ih]
        | null => simp [hdat, ih]
        | bool b => simpa [hdat] using ih
        | num n => simpa [hdat] using ih
        | str s => simpa [hdat] using ih
    | null => simpa using ih
    | bool b => simpa using ih
    | num n => simpa using ih
    | str s => simpa using ih
    | arr l => simpa using ih

/-- C3 amended: universally over entity data mappings,
`extract_media_references` returns the ids of exactly those `data`-shaped
fields whose sub-object carries a `mime` key (the flatMap closed form),
while `extract_relations` extracts every `data`-shaped field with no
`mime` test anywhere (the filterMap closed form, in which no branch
consults `mime`) — so a `mime`-carrying media field is extracted as a
relation too.  The spec's concrete instances follow: the media extractor
returns `[i]` on the `mime` shape and `[]` on the no-`mime` shape, and
the relation extractor returns the field on both shapes. -/
theorem media_relation_discrimination (data : List (String × Json))
    (f : String) (i : Int) :
    MediaHandler.extract_media_references data =
      data.flatMap (fun p =>
        match p.2 with
        | Json.obj fields =>
          match assocGet fields "data" with
          | some (Json.obj media_fields) =>
            if assocHas media_fields "mime" then
              match assocGet media_fields "id" with
              | some idv => [idv]
              | none => []
            else []
          | some (Json.arr items) =>
            items.filterMap fun item =>
              match item with
              | Json.obj item_fields =>
                if assocHas item_fields "mime" then assocGet item_fields "id"
                else none
              | _ => none
          | _ => []
        | _ => []) ∧
    RelationResolver.extract_relations data =
      data.filterMap (fun p =>
        match p.2 with
        | Json.obj fields =>
          match assocGet fields "data" with
          | some Json.null => some (p.1, ([] : List Json))
          | some (Json.obj rel_fields) =>
            match assocGet rel_fields "id" with
            | some idv => some (p.1, [idv])
            | none => none
          | some (Json.arr items) =>
            (fun ids => if ids.isEmpty then none else some (p.1, ids))
              (items.filterMap fun item =>
                match item with
                | Json.obj item_fields => assocGet item_fields "id"
                | _ => none)
          | _ => none
        | _ => none) ∧
    MediaHandler.extract_media_references
      [(f, Json.obj [("data",
          Json.obj [("id", Json.num i), ("mime", Json.str "image/jpeg")])])] =
      [Json.num i] ∧
    MediaHandler.extract_media_references
      [(f, Json.obj [("data", Json.obj [("id", Json.num i)])])] = [] ∧
    RelationResolver.extract_relations
      [(f, Json.obj [("data", Json.obj [("id", Json.num i)])])] =
      [(f, [Json.num i])] ∧
    RelationResolver.extract_relations
      [(f, Json.obj [("data",
          Json.obj [("id", Json.num i), ("mime", Json.str "image/jpeg")])])] =
      [(f, [Json.num i])] :=
  ⟨extract_media_references_flatMap data, extract_relations_filterMap data,
   rfl, rfl, rfl, rfl⟩

/-- C4.  Download filename, evaluated at a malicious media name: the
source performs no sanitization (`_sanitize_filename`, which the
repository's own tests call, does not exist), so the written filename
retains the `..` path-traversal sequence and the path escapes the output
directory. -/
theorem download_media_filename_unsanitized :
    MediaHandler.download_media_filename 1 "../../etc/passwd" = "1_../../etc/passwd" ∧
    MediaHandler.containsDotDot
      (MediaHandler.download_media_filename 1 "../../etc/passwd") = true :=
  ⟨rfl, rfl⟩

/-- Closed form of the inner id loop of `resolve_relations`: exactly the
integer old ids present in the type mapping are mapped, in order. -/
theorem resolve_ids_eq_filterMap (tm : List (Int × Int)) (olds : List Json) :
    RelationResolver.resolve_ids tm olds =
      olds.filterMap (fun old =>
        match old with
        | Json.num n => assocGet tm n
        | _ => none) := by
  induction olds with
  | nil => rfl
  | cons o rest ih =>
    cases o with
    | num n =>
      simp only [RelationResolver.resolve_ids, List.filterMap_cons]
      cases h : assocGet tm n <;> simp [h, ih]
    | null => simpa [RelationResolver.resolve_ids, List.filterMap_cons] using ih
    | bool b => simpa [RelationResolver.resolve_ids, List.filterMap_cons] using ih
    | str s => simpa [RelationResolver.resolve_ids, List.filterMap_cons] using ih
    | arr l => simpa [RelationResolver.resolve_ids, List.filterMap_cons] using ih
    | obj l => simpa [RelationResolver.resolve_ids, List.filterMap_cons] using ih

/-- C7.  `resolve_relations` is a total function equal to the stated
closed form: per field, each old id that is an integer present in
`id_mapping[content_type]` is replaced by its mapped new id, every other
old id is dropped, and a field whose resolved list is empty is omitted
entirely from the result. -/
theorem resolve_relations_total_spec (relations : List (String × List Json))
    (id_mapping : List (String × List (Int × Int))) (content_type : String) :
    RelationResolver.resolve_relations relations id_mapping content_type =
      relations.filterMap (fun p =>
        let new_ids := p.2.filterMap (fun old =>
          match old with
          | Json.num n => assocGet ((assocGet id_mapping content_type).getD []) n
          | _ => none)
        if new_ids.isEmpty then none else some (p.1, new_ids)) := by
  unfold RelationResolver.resolve_relations
  generalize (assocGet id_mapping content_type).getD [] = tm
  induction relations with
  | nil => rfl
  | cons hd tl ih =>
    obtain ⟨f, olds⟩ := hd
    simp only [RelationResolver.resolve_relations_go, List.filterMap_cons,
      resolve_ids_eq_filterMap]
    by_cases h : (olds.filterMap (fun old =>
        match old with
        | Json.num n => assocGet tm n
        | _ => none)).isEmpty <;> simp [h, ih]

/-- Keeping only the integer old ids of every field. -/
def keep_int_ids (relations : List (String × List Json)) :
    List (String × List Json) :=
  relations.map fun p =>
    (p.1, p.2.filter fun old =>
      match old with
      | Json.num _ => true
      | _ => false)

/-- The id loop ignores non-integer ids. -/
theorem resolve_ids_ignores_non_ints (tm : List (Int × Int)) (olds : List Json) :
    RelationResolver.resolve_ids tm
        (olds.filter fun old =>
          match old with
          | Json.num _ => true
          | _ => false) =
      RelationResolver.resolve_ids tm olds := by
  induction olds with
  | nil => rfl
  | cons o rest ih =>
    cases o <;> simp [List.filter_cons, RelationResolver.resolve_ids, ih]

/-- C10.  A string old id (such as a v5 document id) is unconditionally
dropped by `resolve_relations`, whatever `id_mapping` contains: prepending
a string id to a field's id list leaves the id loop's output unchanged,
and removing every non-integer id from every field leaves the whole result
of `resolve_relations` unchanged. -/
theorem resolve_relations_drops_string_ids (relations : List (String × List Json))
    (id_mapping : List (String × List (Int × Int))) (content_type : String) :
    (∀ (tm : List (Int × Int)) (s : String) (rest : List Json),
      RelationResolver.resolve_ids tm (Json.str s :: rest) =
        RelationResolver.resolve_ids tm rest) ∧
    RelationResolver.resolve_relations (keep_int_ids relations) id_mapping content_type =
      RelationResolver.resolve_relations relations id_mapping content_type := by
  refine ⟨fun tm s rest => rfl, ?_⟩
  unfold RelationResolver.resolve_relations
  generalize (assocGet id_mapping content_type).getD [] = tm
  induction relations with
  | nil => rfl
  | cons hd tl ih =>
    obtain ⟨f, olds⟩ := hd
    simp only [keep_int_ids, List.map_cons, RelationResolver.resolve_relations_go,
      resolve_ids_ignores_non_ints]
    simp only [keep_int_ids] at ih
    rw [ih]

/-- C6.  The payload shape law of `build_relation_payload`, per field of an
arbitrary resolved-relations mapping: an empty id list is emitted as an
explicit empty array, a single id as the bare scalar, and two or more ids
as the array of ids. -/
theorem build_relation_payload_shape (rels : List (String × List Json))
    (f : String) (ids : List Json) (h : assocGet rels f = some ids) :
    (ids = [] →
      assocGet (RelationResolver.build_relation_payload rels) f =
        some (Json.arr [])) ∧
    (∀ x, ids = [x] →
      assocGet (RelationResolver.build_relation_payload rels) f = some x) ∧
    (2 ≤ ids.length →
      assocGet (RelationResolver.build_relation_payload rels) f =
        some (Json.arr ids)) := by
  induction rels with
  | nil => simp [assocGet] at h
  | cons hd tl ih =>
    obtain ⟨g, l⟩ := hd
    by_cases hg : g = f
    · subst hg
      have h2 : l = ids := by simpa [assocGet] using h
      subst h2
      refine ⟨?_, ?_, ?_⟩
      · rintro rfl
        simp [RelationResolver.build_relation_payload, assocGet]
      · rintro x rfl
        simp [RelationResolver.build_relation_payload, assocGet]
      · intro hlen
        rcases l with _ | ⟨x, l2⟩
        · simp at hlen
        · rcases l2 with _ | ⟨y, r⟩
          · simp at hlen
          · simp [RelationResolver.build_relation_payload, assocGet]
    · have h2 : assocGet tl f = some ids := by simpa [assocGet, hg] using h
      simpa [RelationResolver.build_relation_payload, assocGet, hg] using ih h2

/-- Witness for C6: the law evaluated on the singleton mapping sending `f`
to the one-element id list `[3]`, whose payload is the bare scalar `3`. -/
theorem build_relation_payload_shape_witness :
    assocGet [("f", [Json.num 3])] "f" = some [Json.num 3] ∧
    assocGet (RelationResolver.build_relation_payload [("f", [Json.num 3])]) "f" =
      some (Json.num 3) :=
  ⟨rfl,
    (build_relation_payload_shape [("f", [Json.num 3])] "f" [Json.num 3] rfl).2.1
      (Json.num 3) rfl⟩

/-- The writer's fold over entities appends one entity line per entity, in
order. -/
theorem foldl_write_entity_lines (es : List ExportedEntity) (st : WriterState) :
    (es.foldl write_entity st).lines = st.lines ++ es.map JsonlLine.entityLine := by
  induction es generalizing st with
  | nil => simp
  | cons e rest ih => simp [List.foldl_cons, ih, write_entity]

/-- The file produced by the writer protocol: the metadata line, the entity
lines in order, the manifest line. -/
theorem write_jsonl_eq (m : ExportMetadata) (es : List ExportedEntity)
    (files : List ExportedMediaFile) :
    write_jsonl m es files =
      JsonlLine.metaLine m ::
        (es.map JsonlLine.entityLine ++ [JsonlLine.manifestLine files]) := by
  simp [write_jsonl, write_media_manifest, foldl_write_entity_lines,
    write_metadata, WriterState.empty]

/-- Draining the line loop over entity lines followed by the manifest line
yields exactly the entities in order, consumes the file, and caches the
manifest. -/
theorem iter_entities_go_entities (es : List ExportedEntity)
    (files : List ExportedMediaFile) (man : Option (List ExportedMediaFile)) :
    iter_entities_go (es.map JsonlLine.entityLine ++ [JsonlLine.manifestLine files]) man =
      (es, [], some files) := by
  induction es with
  | nil => rfl
  | cons e rest ih => simp [iter_entities_go, ih]

/-- After a partial drain of `n` entities from a well-formed tail, either
the manifest has been found (with the file consumed) or the unread
remainder is again a well-formed tail of entity lines followed by the
manifest line. -/
theorem iter_entities_take_shape (files : List ExportedMediaFile) :
    ∀ (es : List ExportedEntity) (n : Nat),
      (iter_entities_take (es.map JsonlLine.entityLine ++ [JsonlLine.manifestLine files]) n none).2 =
          ([], some files) ∨
      ∃ es2 : List ExportedEntity,
        (iter_entities_take (es.map JsonlLine.entityLine ++ [JsonlLine.manifestLine files]) n none).2 =
          (es2.map JsonlLine.entityLine ++ [JsonlLine.manifestLine files], none) := by
  intro es n
  induction es generalizing n with
  | nil =>
    cases n with
    | zero => exact Or.inr ⟨[], rfl⟩
    | succ k => exact Or.inl rfl
  | cons e rest ih =>
    cases n with
    | zero => exact Or.inr ⟨e :: rest, rfl⟩
    | succ k =>
      simpa [iter_entities_take] using ih k

/-- C5.  JSONL round trip: reading a file written as metadata, then the
entities in order, then the media manifest, yields via `iter_entities`
exactly the written entities in the same order (stopping at, and caching,
the manifest line), and `read_media_manifest` returns the written manifest
intact after any partial drain of `n` entities, draining and discarding
the remaining entity lines itself when needed. -/
theorem jsonl_round_trip (m : ExportMetadata) (es : List ExportedEntity)
    (files : List ExportedMediaFile) (n : Nat) :
    iter_entities (ReaderState.openOn (write_jsonl m es files)) =
      Except.ok (es, { lines := [], metadata := some m,
                       media_manifest := some files }) ∧
    drain_then_manifest (write_jsonl m es files) n = Except.ok files := by
  constructor
  · simp [iter_entities, read_metadata, ReaderState.openOn, write_jsonl_eq,
      iter_entities_go_entities]
  · have hmeta :
        read_metadata (ReaderState.openOn (write_jsonl m es files)) =
          Except.ok (m, { lines := es.map JsonlLine.entityLine ++
                            [JsonlLine.manifestLine files],
                          metadata := some m, media_manifest := none }) := by
      simp [read_metadata, ReaderState.openOn, write_jsonl_eq]
    rcases iter_entities_take_shape files es n with h | ⟨es2, h⟩
    · simp [drain_then_manifest, hmeta, h, read_media_manifest]
    · simp only [drain_then_manifest, hmeta]
      rw [show (iter_entities_take (es.map JsonlLine.entityLine ++
          [JsonlLine.manifestLine files]) n none).2.1 =
            es2.map JsonlLine.entityLine ++ [JsonlLine.manifestLine files] from by rw [h],
        show (iter_entities_take (es.map JsonlLine.entityLine ++
          [JsonlLine.manifestLine files]) n none).2.2 = none from by rw [h]]
      simp [read_media_manifest, iter_entities, read_metadata,
        iter_entities_go_entities]

/-- Validation only appends warnings: errors and the entity counters are
untouched. -/
theorem validate_export_data_projections (env : ImportEnv) (ed : ExportData)
    (r : ImportResult) :
    (validate_export_data env ed r).errors = r.errors ∧
    (validate_export_data env ed r).entities_failed = r.entities_failed ∧
    (validate_export_data env ed r).entities_imported = r.entities_imported := by
  cases htv : env.target_version <;>
    simp only [validate_export_data, htv] <;>
    split_ifs <;>
    simp [add_warning]

/-- C8.  Whenever `import_data` returns a result, `success` is exactly
`entities_failed == 0`: both early returns and the final assignment agree
with it, and the media pass only touches the media counters, warnings and
errors, never `entities_failed`. -/
theorem import_success_iff_no_failures (env : ImportEnv) (ed : ExportData)
    (options : ImportOptions) (media_dir : Option String) :
    (import_data env ed options media_dir).result.success =
      ((import_data env ed options media_dir).result.entities_failed == 0) := by
  have hv0 := validate_export_data_projections env ed (ImportResult.initial options.dry_run)
  have hv := hv0
  simp only [ImportResult.initial] at hv
  simp only [import_data]
  split
  · rename_i hcond
    rw [hv0.1] at hcond
    simp [ImportResult.initial] at hcond
  · split
    · simp [add_warning, hv.2.1, ImportResult.initial]
    · rfl

/-- In a dry run the media loop only bumps `media_imported`: no upload call
is issued and no id pair is recorded. -/
theorem import_media_loop_dry (env : ImportEnv) (options : ImportOptions)
    (h : options.dry_run = true) :
    ∀ (files : List ExportedMediaFile) (st : ImportRun) (acc : List (Int × Int)),
      import_media_loop env options files st acc =
        (acc, { st with result :=
            { st.result with
              media_imported := st.result.media_imported + files.length } }) := by
  intro files
  induction files with
  | nil => intro st acc; simp [import_media_loop]
  | cons f rest ih =>
    intro st acc
    simp only [import_media_loop, h, if_true]
    rw [ih]
    simp
    omega

/-- In a dry run the media pass issues no network call and leaves the
entity counter unchanged. -/
theorem import_media_dry (env : ImportEnv) (ed : ExportData)
    (media_dir : Option String) (options : ImportOptions) (st : ImportRun)
    (h : options.dry_run = true) :
    (import_media env ed media_dir options st).2.calls = st.calls ∧
    (import_media env ed media_dir options st).2.result.entities_imported =
      st.result.entities_imported := by
  unfold import_media
  split
  · exact ⟨rfl, rfl⟩
  · cases media_dir with
    | none => exact ⟨rfl, rfl⟩
    | some d =>
      simp only
      split
      · simp [add_error]
      · rw [import_media_loop_dry env options h]
        exact ⟨rfl, rfl⟩

/-- In a dry run the entity loop only bumps `entities_imported`, once per
entity: no create call is issued and no id mapping is recorded. -/
theorem import_entities_loop_dry (env : ImportEnv) (options : ImportOptions)
    (endpoint content_type : String) (mapping : List (Int × Int))
    (h : options.dry_run = true) :
    ∀ (es : List ExportedEntity) (st : ImportRun),
      import_entities_loop env options endpoint content_type mapping es st =
        { st with result :=
            { st.result with
              entities_imported := st.result.entities_imported + es.length } } := by
  intro es
  induction es with
  | nil => intro st; simp [import_entities_loop]
  | cons e rest ih =>
    intro st
    simp only [import_entities_loop, h, if_true]
    rw [ih]
    simp
    omega

/-- In a dry run the entity pass adds exactly the number of entities of the
imported content types to `entities_imported` and issues no call. -/
theorem import_entities_dry (env : ImportEnv) (ed : ExportData)
    (cts : List String) (mapping : List (Int × Int)) (options : ImportOptions)
    (h : options.dry_run = true) :
    ∀ st : ImportRun,
      import_entities env ed cts mapping options st =
        { st with result :=
            { st.result with
              entities_imported := st.result.entities_imported +
                (cts.map fun ct => ((assocGet ed.entities ct).getD []).length).sum } } := by
  induction cts with
  | nil => intro st; simp [import_entities]
  | cons ct rest ih =>
    intro st
    simp only [import_entities, List.foldl_cons] at *
    rw [import_entities_loop_dry env options _ _ mapping h, ih]
    simp
    omega

/-- In a dry run the relation loop is the identity on the importer state. -/
theorem import_relations_loop_dry (env : ImportEnv) (options : ImportOptions)
    (endpoint content_type : String) (h : options.dry_run = true) :
    ∀ (es : List ExportedEntity) (st : ImportRun),
      import_relations_loop env options endpoint content_type es st = st := by
  intro es
  induction es with
  | nil => intro st; rfl
  | cons e rest ih =>
    intro st
    unfold import_relations_loop
    repeat' split
    all_goals simp_all

/-- In a dry run the relation pass is the identity on the importer state. -/
theorem import_relations_dry (env : ImportEnv) (ed : ExportData)
    (cts : List String) (options : ImportOptions)
    (h : options.dry_run = true) :
    ∀ st : ImportRun, import_relations env ed cts options st = st := by
  induction cts with
  | nil => intro st; rfl
  | cons ct rest ih =>
    intro st
    simp only [import_relations, List.foldl_cons] at *
    rw [import_relations_loop_dry env options _ _ h, ih]

/-- C9.  Dry run has no side effects: with `dry_run = true`, `import_data`
issues zero create, update or upload network calls, and still reports
`entities_imported` equal to the number of entities of the imported
content types. -/
theorem dry_run_no_side_effects (env : ImportEnv) (ed : ExportData)
    (options : ImportOptions) (media_dir : Option String)
    (h : options.dry_run = true) :
    (import_data env ed options media_dir).calls = [] ∧
    (import_data env ed options media_dir).result.entities_imported =
      ((get_content_types_to_import ed options).map
        fun ct => ((assocGet ed.entities ct).getD []).length).sum := by
  have hv := validate_export_data_projections env ed (ImportResult.initial options.dry_run)
  simp only [import_data]
  split
  · rename_i hcond
    simp [h] at hcond
  · split
    · rename_i hempty
      have hcts : get_content_types_to_import ed options = [] := by
        simpa [List.isEmpty_iff] using hempty
      refine ⟨rfl, ?_⟩
      simp only [hcts, List.map_nil, List.sum_nil, add_warning]
      simpa [ImportResult.initial] using hv.2.2
    · cases hmedia : (options.import_media && !ed.media.isEmpty) with
      | false =>
        simp only [hmedia, Bool.false_eq_true, if_false]
        rw [import_entities_dry env ed _ [] options h]
        cases hskip : (!options.skip_relations) with
        | false =>
          simp only [hskip, Bool.false_eq_true, if_false]
          refine ⟨trivial, ?_⟩
          rw [show (validate_export_data env ed
              (ImportResult.initial options.dry_run)).entities_imported = 0 from by
            simpa [ImportResult.initial] using hv.2.2]
          simp
        | true =>
          simp only [hskip, if_true]
          rw [import_relations_dry env ed _ options h]
          refine ⟨rfl, ?_⟩
          rw [show (validate_export_data env ed
              (ImportResult.initial options.dry_run)).entities_imported = 0 from by
            simpa [ImportResult.initial] using hv.2.2]
          simp
      | true =>
        simp only [hmedia, if_true]
        rw [import_entities_dry env ed _ _ options h]
        have hm := import_media_dry env ed media_dir options
          { result := validate_export_data env ed (ImportResult.initial options.dry_run),
            calls := [] } h
        cases hskip : (!options.skip_relations) with
        | false =>
          simp only [hskip, Bool.false_eq_true, if_false]
          refine ⟨hm.1, ?_⟩
          rw [hm.2]
          rw [show (validate_export_data env ed
              (ImportResult.initial options.dry_run)).entities_imported = 0 from by
            simpa [ImportResult.initial] using hv.2.2]
          simp
        | true =>
          simp only [hskip, if_true]
          rw [import_relations_dry env ed _ options h]
          refine ⟨hm.1, ?_⟩
          rw [hm.2]
          rw [show (validate_export_data env ed
              (ImportResult.initial options.dry_run)).entities_imported = 0 from by
            simpa [ImportResult.initial] using hv.2.2]
          simp

/-- Witness for C9: the dry-run law evaluated on the concrete two-entity
export, with the media pass requested: zero calls, two entities counted. -/
theorem dry_run_no_side_effects_witness :
    (import_data two_pass_env two_pass_export dry_run_options none).calls = [] ∧
    (import_data two_pass_env two_pass_export dry_run_options none).result.entities_imported = 2 := by
  have h := dry_run_no_side_effects two_pass_env two_pass_export dry_run_options none rfl
  refine ⟨h.1, ?_⟩
  rw [h.2]
  rfl
